import Mathlib

/-!
Shallow embedding of the pvp-trainer server (src/server.js, with the
src/unnamed/part_000 variant embedded separately in namespace P0).

Connection identifiers and room identifiers are strings, as in the source
(socket.io socket ids and user-chosen room ids).  The JavaScript per-room
object maps (nick, score, pos, next, hp, ready) are embedded as functions
from socket id to Option values: none models an absent key.  The `next`
map distinguishes a key set to null (some none) from an absent key (none),
matching `room.state.next[id] = null` versus `delete room.state.next[id]`.
Randomness (`randomSpawn`) is passed in as an explicit spawn argument.
Broadcasts are returned as a list of emitted events.
-/

namespace Pvp

abbrev SId := String
abbrev RoomId := String

/-- A grid coordinate pair, as produced by moveStart/moveComplete payloads
and randomSpawn (JavaScript numbers used as integers). -/
structure Pos where
  x : Int
  y : Int
deriving DecidableEq, Repr

/-- Update an object map at one key (JavaScript `m[k] = v`). -/
def mset {α : Type} (m : SId → Option α) (k : SId) (v : α) : SId → Option α :=
  fun q => if q = k then some v else m q

/-- Delete a key from an object map (JavaScript `delete m[k]`). -/
def mdel {α : Type} (m : SId → Option α) (k : SId) : SId → Option α :=
  fun q => if q = k then none else m q

/-- One room, following the shape documented at the top of src/server.js:
players list plus nick and per-player state maps score/pos/next/hp/ready. -/
structure Room where
  players : List SId
  nick : SId → Option String
  score : SId → Option Int
  pos : SId → Option Pos
  next : SId → Option (Option Pos)
  hp : SId → Option Int
  ready : SId → Option Bool

/-- The fresh room built by ensureRoom. -/
def emptyRoom : Room :=
  { players := []
    nick := fun _ => none
    score := fun _ => none
    pos := fun _ => none
    next := fun _ => none
    hp := fun _ => none
    ready := fun _ => none }

/-- Whole-server state: the global `rooms` table plus each socket's
`socket.data.roomId` binding. -/
structure ServerSt where
  rooms : RoomId → Option Room
  binding : SId → Option RoomId

def initSt : ServerSt :=
  { rooms := fun _ => none, binding := fun _ => none }

def setRoom (st : ServerSt) (rid : RoomId) (r : Room) : ServerSt :=
  { st with rooms := fun q => if q = rid then some r else st.rooms q }

def delRoom (st : ServerSt) (rid : RoomId) : ServerSt :=
  { st with rooms := fun q => if q = rid then none else st.rooms q }

def bindSock (st : ServerSt) (s : SId) (rid : RoomId) : ServerSt :=
  { st with binding := fun q => if q = s then some rid else st.binding q }

/-- src/server.js ensureRoom: create the room record if absent. -/
def ensureRoom (st : ServerSt) (rid : RoomId) : ServerSt :=
  match st.rooms rid with
  | some _ => st
  | none => setRoom st rid emptyRoom

/-- Read a room that is known to exist (JavaScript `rooms[roomId]` after
ensureRoom or an existence check). -/
def getRoomD (st : ServerSt) (rid : RoomId) : Room :=
  (st.rooms rid).getD emptyRoom

/-- src/server.js roomHasSpace. -/
def roomHasSpace (st : ServerSt) (rid : RoomId) : Bool :=
  (getRoomD st rid).players.length < 2

/-- src/server.js opponentOf: `room.players.find((id) => id !== me)`. -/
def opponentOf (room : Room) (me : SId) : Option SId :=
  room.players.find? (fun id => id != me)

/-- Events emitted to sockets.  spellResolved also carries the room's hp
map in the source; here the hp map is read off the post state instead of
being duplicated in the event. roundStart carries the refreshed pos and
hp maps. -/
inductive SEvent where
  | roomsUpdate
  | roomReady (players : List (SId × String))
  | opponentReady
  | roundCountdown (seconds : Nat)
  | roundStart (pos : SId → Option Pos) (hp : SId → Option Int)
  | opponentMoveStart (x y : Int)
  | opponentMoveComplete (x y : Int)
  | spellResolved (casterId : SId) (ty : String) (targetX targetY : Int)
      (hit : Bool) (hitTargetId : Option SId)
  | roundOver (winnerId : SId) (score : SId → Option Int)
  | opponentLeft

/-- Acknowledgement callback payload for createRoom/joinRoom/enterGame:
`{success: true}` or `{success: false, message}`. -/
inductive CbResult where
  | ok
  | err (message : String)
deriving DecidableEq, Repr

/-- The seven per-player initialisations shared verbatim by createRoom and
joinRoom (src/server.js lines 87-93 and 108-114). -/
def addPlayer (r : Room) (s : SId) (nickname : String) (spawn : Pos) : Room :=
  { players := r.players ++ [s]
    nick := mset r.nick s nickname
    score := mset r.score s 0
    pos := mset r.pos s spawn
    next := mset r.next s none
    hp := mset r.hp s 100
    ready := mset r.ready s false }

/-- src/server.js createRoom handler. -/
def createRoom (st : ServerSt) (s : SId) (roomId nickname : String) (spawn : Pos) :
    CbResult × ServerSt × List SEvent :=
  if roomId = "" ∨ nickname = "" then (.err "Missing room or nickname", st, [])
  else
    let st1 := ensureRoom st roomId
    let room := getRoomD st1 roomId
    if room.players.length > 0 then (.err "Room ID already taken", st1, [])
    else
      let room1 := addPlayer room s nickname spawn
      (.ok, bindSock (setRoom st1 roomId room1) s roomId, [SEvent.roomsUpdate])

/-- src/server.js joinRoom handler. -/
def joinRoom (st : ServerSt) (s : SId) (roomId nickname : String) (spawn : Pos) :
    CbResult × ServerSt × List SEvent :=
  if roomId = "" ∨ nickname = "" then (.err "Missing room or nickname", st, [])
  else
    match st.rooms roomId with
    | none => (.err "Room does not exist", st, [])
    | some room =>
      if ¬ roomHasSpace st roomId then (.err "Room is full", st, [])
      else
        let room1 := addPlayer room s nickname spawn
        let evs :=
          if room1.players.length = 2 then
            [SEvent.roomReady (room1.players.map (fun id => (id, (room1.nick id).getD "")))]
          else []
        (.ok, bindSock (setRoom st roomId room1) s roomId, evs ++ [SEvent.roomsUpdate])

/-- src/server.js enterGame handler. -/
def enterGame (st : ServerSt) (s : SId) (roomId nickname : String) (spawn : Pos) :
    CbResult × ServerSt × List SEvent :=
  let st1 := ensureRoom st roomId
  let room := getRoomD st1 roomId
  if s ∈ room.players then
    let evs :=
      if room.players.length = 2 then
        [SEvent.roomReady (room.players.map (fun id => (id, (room.nick id).getD "")))]
      else []
    (.ok, st1, evs ++ [SEvent.roomsUpdate])
  else if ¬ roomHasSpace st1 roomId then (.err "Room is full", st1, [])
  else
    let nick1 := if nickname = "" then "Player-" ++ s.take 4 else nickname
    let room1 : Room :=
      { players := room.players ++ [s]
        nick := mset room.nick s nick1
        score := mset room.score s ((room.score s).getD 0)
        pos := mset room.pos s ((room.pos s).getD spawn)
        next := mset room.next s none
        hp := mset room.hp s ((room.hp s).getD 100)
        ready := mset room.ready s false }
    let evs :=
      if room1.players.length = 2 then
        [SEvent.roomReady (room1.players.map (fun id => (id, (room1.nick id).getD "")))]
      else []
    (.ok, bindSock (setRoom st1 roomId room1) s roomId, evs ++ [SEvent.roomsUpdate])

/-- src/server.js setReady handler.  Only the synchronous part: the
3-second timer scheduled when both players are ready fires later as
`roundStartTimer`. -/
def setReady (st : ServerSt) (s : SId) : ServerSt × List SEvent :=
  match st.binding s with
  | none => (st, [])
  | some rid =>
    match st.rooms rid with
    | none => (st, [])
    | some room =>
      let room1 := { room with ready := mset room.ready s true }
      let st1 := setRoom st rid room1
      match room1.players with
      | [p0, p1] =>
        if (room1.ready p0).getD false && (room1.ready p1).getD false then
          (st1, [SEvent.roundCountdown 3])
        else (st1, [SEvent.opponentReady])
      | _ => (st1, [SEvent.opponentReady])

/-- The setTimeout body scheduled by setReady: reset each player's hp to
100, resample the spawn position, set next to null, broadcast roundStart. -/
def roundStartTimer (st : ServerSt) (rid : RoomId) (spawn : SId → Pos) :
    ServerSt × List SEvent :=
  match st.rooms rid with
  | none => (st, [])
  | some room =>
    let room1 := room.players.foldl
      (fun r id =>
        { r with
          hp := mset r.hp id 100
          pos := mset r.pos id (spawn id)
          next := mset r.next id none })
      room
    (setRoom st rid room1, [SEvent.roundStart room1.pos room1.hp])

/-- `Math.max(0, (hp ?? 100) - amt)` from the castRune damage lines. -/
def applyDamage (o : Option Int) (amt : Int) : Int :=
  max 0 (o.getD 100 - amt)

/-- `Math.min(100, (hp ?? 100) + amt)` from the castRune heal line. -/
def applyHeal (o : Option Int) (amt : Int) : Int :=
  min 100 (o.getD 100 + amt)

/-- Target tile in bounds (`t.x >= 0 && t.x < 16 && t.y >= 0 && t.y < 16`). -/
def inGrid (t : Pos) : Bool :=
  decide (0 ≤ t.x) && decide (t.x < 16) && decide (0 ≤ t.y) && decide (t.y < 16)

/-- The explo cross pattern: centre plus the four cardinal neighbours,
filtered to the 16x16 grid. -/
def exploTargets (tx ty : Int) : List Pos :=
  ([⟨tx, ty⟩, ⟨tx, ty - 1⟩, ⟨tx, ty + 1⟩, ⟨tx - 1, ty⟩, ⟨tx + 1, ty⟩] : List Pos).filter inGrid

/-- `pos && pos.x === t.x && pos.y === t.y` over a pos-map entry. -/
def posHit (o : Option Pos) (t : Pos) : Bool :=
  match o with
  | some p => p.x == t.x && p.y == t.y
  | none => false

/-- `next && next.x === t.x && next.y === t.y` over a next-map entry
(an absent key and a key set to null are both falsy). -/
def nextHit (o : Option (Option Pos)) (t : Pos) : Bool :=
  match o with
  | some (some p) => p.x == t.x && p.y == t.y
  | _ => false

/-- `hp <= 0` under JavaScript semantics: false when the key is absent
(`undefined <= 0` is false). -/
def jsLe0 (o : Option Int) : Bool :=
  match o with
  | some h => decide (h ≤ 0)
  | none => false

/-- One iteration of the explo forEach: pos and next are read from the
unmutated room, hp from the accumulated map, matching the source where
only `room.state.hp` is written inside the loop. -/
def exploStep (room : Room) (targets : List Pos)
    (acc : Bool × Option SId × (SId → Option Int)) (pid : SId) :
    Bool × Option SId × (SId → Option Int) :=
  let inT := targets.any (fun t => posHit (room.pos pid) t || nextHit (room.next pid) t)
  if inT then (true, some pid, mset acc.2.2 pid (applyDamage (acc.2.2 pid) 19))
  else acc

/-- The hit-resolution core of the castRune handler: returns the final
values of the `hit` and `hitTarget` variables and the updated hp map.
The explo branch folds the forEach over room.players; the single-target
branch checks the caster's pos only, then the opponent's pos and next
(overwriting hitTarget), then applies sd damage or uh heal to hitTarget.
Socket ids are nonempty strings, so the JavaScript truthiness test
`hit && hitTarget` is presence of hitTarget. -/
def castCore (room : Room) (me : SId) (ty : String) (targetX targetY : Int) :
    Bool × Option SId × (SId → Option Int) :=
  if ty = "explo" then
    room.players.foldl (exploStep room (exploTargets targetX targetY))
      (false, none, room.hp)
  else
    let t : Pos := ⟨targetX, targetY⟩
    let selfRes : Bool × Option SId :=
      if posHit (room.pos me) t then (true, some me) else (false, none)
    let res : Bool × Option SId :=
      match opponentOf room me with
      | some opp =>
        if posHit (room.pos opp) t || nextHit (room.next opp) t then (true, some opp)
        else selfRes
      | none => selfRes
    let hp1 : SId → Option Int :=
      match res.2 with
      | some tgt =>
        if ty = "sd" then mset room.hp tgt (applyDamage (room.hp tgt) 40)
        else if ty = "uh" then mset room.hp tgt (applyHeal (room.hp tgt) 40)
        else room.hp
      | none => room.hp
    (res.1, res.2, hp1)

/-- The round-over check at the end of the castRune handler: with exactly
two players, if either hp is <= 0, credit the win to the other player,
broadcast roundOver with the updated score map, and reset both ready
flags. -/
def roundCheck (room1 : Room) : Room × List SEvent :=
  match room1.players with
  | [p0, p1] =>
    if jsLe0 (room1.hp p0) || jsLe0 (room1.hp p1) then
      let winner := if jsLe0 (room1.hp p0) then p1 else p0
      let score1 := mset room1.score winner ((room1.score winner).getD 0 + 1)
      ({ room1 with
          score := score1
          ready := mset (mset room1.ready p0 false) p1 false },
       [SEvent.roundOver winner score1])
    else (room1, [])
  | _ => (room1, [])

/-- src/server.js castRune handler. -/
def castRune (st : ServerSt) (me : SId) (ty : String) (targetX targetY : Int) :
    ServerSt × List SEvent :=
  match st.binding me with
  | none => (st, [])
  | some rid =>
    match st.rooms rid with
    | none => (st, [])
    | some room =>
      match castCore room me ty targetX targetY with
      | (hit, hitTarget, hp1) =>
        let room1 := { room with hp := hp1 }
        let ev0 := SEvent.spellResolved me ty targetX targetY hit
          (if hit then hitTarget else none)
        match roundCheck room1 with
        | (room2, evs2) => (setRoom st rid room2, ev0 :: evs2)

/-- The room record after the disconnect handler's removals: the socket
is filtered out of players and deleted from every per-player map. -/
def roomWithout (room : Room) (s : SId) : Room :=
  { players := room.players.filter (fun id => id != s)
    nick := mdel room.nick s
    score := mdel room.score s
    pos := mdel room.pos s
    next := mdel room.next s
    hp := mdel room.hp s
    ready := mdel room.ready s }

/-- src/server.js disconnect handler. -/
def disconnect (st : ServerSt) (s : SId) : ServerSt × List SEvent :=
  match st.binding s with
  | none => (st, [])
  | some rid =>
    match st.rooms rid with
    | none => (st, [])
    | some room =>
      let room1 := roomWithout room s
      let st1 := setRoom st rid room1
      let st2 := if room1.players.length = 0 then delRoom st1 rid else st1
      (st2, [SEvent.opponentLeft, SEvent.roomsUpdate])

/-- The lobby/game event alphabet quantified over by the occupancy
invariant: createRoom, joinRoom, enterGame and disconnect, with the
sampled spawn position passed explicitly. -/
inductive Ev where
  | createRoom (s : SId) (roomId nickname : String) (spawn : Pos)
  | joinRoom (s : SId) (roomId nickname : String) (spawn : Pos)
  | enterGame (s : SId) (roomId nickname : String) (spawn : Pos)
  | disconnect (s : SId)

/-- State transition of one lobby/game event. -/
def step (st : ServerSt) (e : Ev) : ServerSt :=
  match e with
  | .createRoom s rid nick sp => (createRoom st s rid nick sp).2.1
  | .joinRoom s rid nick sp => (joinRoom st s rid nick sp).2.1
  | .enterGame s rid nick sp => (enterGame st s rid nick sp).2.1
  | .disconnect s => (disconnect st s).1

/-- Run a sequence of lobby/game events from the empty server state. -/
def run (evs : List Ev) : ServerSt :=
  evs.foldl step initSt

/-- src/server.js moveStart handler. -/
def moveStart (st : ServerSt) (s : SId) (x y : Int) : ServerSt × List SEvent :=
  match st.binding s with
  | none => (st, [])
  | some rid =>
    match st.rooms rid with
    | none => (st, [])
    | some room =>
      (setRoom st rid { room with next := mset room.next s (some ⟨x, y⟩) },
       [SEvent.opponentMoveStart x y])

/-- src/server.js moveComplete handler. -/
def moveComplete (st : ServerSt) (s : SId) (x y : Int) : ServerSt × List SEvent :=
  match st.binding s with
  | none => (st, [])
  | some rid =>
    match st.rooms rid with
    | none => (st, [])
    | some room =>
      (setRoom st rid
        { room with pos := mset room.pos s ⟨x, y⟩, next := mset room.next s none },
       [SEvent.opponentMoveComplete x y])

end Pvp

namespace P0

/-!
Embedding of the set_ready handler of the src/unnamed/part_000 variant
(lines 86-96), which guards the countdown with `!room.match.inRound`.
`room.players` is an object map; its key list is modelled as a list of
socket ids.  `room.ready` is an object map whose values are inspected by
`Object.values(room.ready).every(Boolean)`, so it is modelled as an
association list in insertion order.
-/

abbrev SId := String

/-- JavaScript object write `m[k] = v` on an association list: an existing
key keeps its place, a new key is appended. -/
def setAssoc (l : List (SId × Bool)) (k : SId) (v : Bool) : List (SId × Bool) :=
  if l.any (fun p => p.1 == k) then
    l.map (fun p => if p.1 == k then (k, v) else p)
  else l ++ [(k, v)]

/-- The part of a part_000 room read by set_ready: the players map keys,
the ready map, and match.inRound. -/
structure P0Room where
  players : List SId
  ready : List (SId × Bool)
  inRound : Bool

/-- part_000 set_ready: record the ready flag, then start the round
countdown only when there are two players, every ready value is true,
and the room is not already in a round.  The Bool result tells whether
startRoundCountdown was invoked. -/
def set_ready (r : P0Room) (me : SId) (rdy : Bool) : P0Room × Bool :=
  let r1 : P0Room := { r with ready := setAssoc r.ready me rdy }
  (r1, r1.players.length == 2 && r1.ready.all (fun p => p.2) && !r1.inRound)

end P0

namespace Pvp

/-!  ## Concrete fixtures used by counterexamples and witnesses  -/

/-- A two-player room "R" occupied by sockets "a" (nickname "Al") and
"b" (nickname "Bo"), with the given positions, anticipated positions,
health values and ready flags. -/
def mkRoom (pa pb : Pos) (na nb : Option Pos) (hpa hpb : Int) (ra rb : Bool) : Room :=
  { players := ["a", "b"]
    nick := fun k => if k = "a" then some "Al" else if k = "b" then some "Bo" else none
    score := fun k => if k = "a" ∨ k = "b" then some 0 else none
    pos := fun k => if k = "a" then some pa else if k = "b" then some pb else none
    next := fun k => if k = "a" then some na else if k = "b" then some nb else none
    hp := fun k => if k = "a" then some hpa else if k = "b" then some hpb else none
    ready := fun k => if k = "a" then some ra else if k = "b" then some rb else none }

/-- Server state holding exactly the room "R", with "a" and "b" bound to it. -/
def mkSt (r : Room) : ServerSt :=
  { rooms := fun q => if q = "R" then some r else none
    binding := fun q => if q = "a" ∨ q = "b" then some "R" else none }

/-!  ## Projection lemmas  -/

@[simp] theorem setRoom_rooms (st : ServerSt) (rid : RoomId) (r : Room) :
    (setRoom st rid r).rooms = fun q => if q = rid then some r else st.rooms q := rfl

@[simp] theorem setRoom_binding (st : ServerSt) (rid : RoomId) (r : Room) :
    (setRoom st rid r).binding = st.binding := rfl

@[simp] theorem delRoom_rooms (st : ServerSt) (rid : RoomId) :
    (delRoom st rid).rooms = fun q => if q = rid then none else st.rooms q := rfl

@[simp] theorem bindSock_rooms (st : ServerSt) (s : SId) (rid : RoomId) :
    (bindSock st s rid).rooms = st.rooms := rfl

@[simp] theorem bindSock_binding (st : ServerSt) (s : SId) (rid : RoomId) :
    (bindSock st s rid).binding = fun q => if q = s then some rid else st.binding q := rfl

@[simp] theorem mset_same {α : Type} (m : SId → Option α) (k : SId) (v : α) :
    mset m k v k = some v := by simp [mset]

theorem mset_other {α : Type} (m : SId → Option α) (k q : SId) (v : α) (h : q ≠ k) :
    mset m k v q = m q := by simp [mset, h]

@[simp] theorem mdel_same {α : Type} (m : SId → Option α) (k : SId) :
    mdel m k k = none := by simp [mdel]

theorem mdel_other {α : Type} (m : SId → Option α) (k q : SId) (h : q ≠ k) :
    mdel m k q = m q := by simp [mdel, h]

theorem getRoomD_of_some {st : ServerSt} {rid : RoomId} {r : Room}
    (h : st.rooms rid = some r) : getRoomD st rid = r := by
  simp [getRoomD, h]

/-!  ## Occupancy invariant (claim C1)  -/

/-- Every live room has at most two entries in its players list. -/
def OccInv (st : ServerSt) : Prop :=
  ∀ rid r, st.rooms rid = some r → r.players.length ≤ 2

theorem occInv_initSt : OccInv initSt := by
  intro rid r h
  simp [initSt] at h

theorem occInv_setRoom {st : ServerSt} {rid : RoomId} {r : Room}
    (h : OccInv st) (hr : r.players.length ≤ 2) : OccInv (setRoom st rid r) := by
  intro q rq hq
  simp only [setRoom_rooms] at hq
  split at hq
  · cases hq; exact hr
  · exact h q rq hq

theorem occInv_delRoom {st : ServerSt} {rid : RoomId} (h : OccInv st) :
    OccInv (delRoom st rid) := by
  intro q rq hq
  simp only [delRoom_rooms] at hq
  split at hq
  · cases hq
  · exact h q rq hq

theorem occInv_bindSock {st : ServerSt} {s : SId} {rid : RoomId} (h : OccInv st) :
    OccInv (bindSock st s rid) := h

theorem occInv_ensureRoom {st : ServerSt} {rid : RoomId} (h : OccInv st) :
    OccInv (ensureRoom st rid) := by
  unfold ensureRoom
  split
  · exact h
  · exact occInv_setRoom h (by simp [emptyRoom])

theorem occInv_createRoom {st : ServerSt} (s : SId) (rid nick : String) (sp : Pos)
    (h : OccInv st) : OccInv (createRoom st s rid nick sp).2.1 := by
  unfold createRoom
  split
  · exact h
  · dsimp only
    split
    · exact occInv_ensureRoom h
    · rename_i hlen
      apply occInv_bindSock
      apply occInv_setRoom (occInv_ensureRoom h)
      simp only [addPlayer, List.length_append, List.length_cons, List.length_nil]
      omega

theorem occInv_joinRoom {st : ServerSt} (s : SId) (rid nick : String) (sp : Pos)
    (h : OccInv st) : OccInv (joinRoom st s rid nick sp).2.1 := by
  unfold joinRoom
  split
  · exact h
  · split
    · exact h
    · rename_i room hroom
      dsimp only
      split
      · exact h
      · rename_i hspace
        apply occInv_bindSock
        apply occInv_setRoom h
        simp only [roomHasSpace, getRoomD_of_some hroom, decide_eq_true_eq, not_not] at hspace
        simp only [addPlayer, List.length_append, List.length_cons, List.length_nil]
        omega

theorem occInv_enterGame {st : ServerSt} (s : SId) (rid nick : String) (sp : Pos)
    (h : OccInv st) : OccInv (enterGame st s rid nick sp).2.1 := by
  unfold enterGame
  dsimp only
  split
  · exact occInv_ensureRoom h
  · split
    · exact occInv_ensureRoom h
    · rename_i hspace
      apply occInv_bindSock
      apply occInv_setRoom (occInv_ensureRoom h)
      simp only [roomHasSpace, decide_eq_true_eq, not_not] at hspace
      simp only [List.length_append, List.length_cons, List.length_nil]
      omega

theorem occInv_disconnect {st : ServerSt} (s : SId) (h : OccInv st) :
    OccInv (disconnect st s).1 := by
  unfold disconnect
  cases hb : st.binding s with
  | none => exact h
  | some rid =>
    cases hroom : st.rooms rid with
    | none => simp only [hroom]; exact h
    | some room =>
      simp only [hroom]
      split
      · exact occInv_delRoom (occInv_setRoom h
          (le_trans (List.length_filter_le _ _) (h rid room hroom)))
      · exact occInv_setRoom h
          (le_trans (List.length_filter_le _ _) (h rid room hroom))

theorem occInv_step {st : ServerSt} (e : Ev) (h : OccInv st) : OccInv (step st e) := by
  cases e with
  | createRoom s rid nick sp => exact occInv_createRoom s rid nick sp h
  | joinRoom s rid nick sp => exact occInv_joinRoom s rid nick sp h
  | enterGame s rid nick sp => exact occInv_enterGame s rid nick sp h
  | disconnect s => exact occInv_disconnect s h

theorem occInv_foldl (evs : List Ev) : ∀ st : ServerSt, OccInv st → OccInv (evs.foldl step st) := by
  induction evs with
  | nil => intro st h; exact h
  | cons e rest ih => intro st h; exact ih (step st e) (occInv_step e h)

/-- Claim C1: along every sequence of createRoom/joinRoom/enterGame/disconnect
events a room's players list never holds more than 2 occupants, and a
joinRoom aimed at a room that already has 2 occupants fails with the
"Room is full" error and leaves the whole server state unchanged. -/
theorem c1_room_capacity :
    (∀ evs rid r, (run evs).rooms rid = some r → r.players.length ≤ 2) ∧
    (∀ st s rid nick sp room, rid ≠ "" → nick ≠ "" →
      st.rooms rid = some room → 2 ≤ room.players.length →
      joinRoom st s rid nick sp = (.err "Room is full", st, [])) := by
  constructor
  · intro evs
    exact occInv_foldl evs initSt occInv_initSt
  · intro st s rid nick sp room hrid hnick hroom hlen
    unfold joinRoom
    rw [if_neg (by simp [hrid, hnick])]
    rw [hroom]
    dsimp only
    rw [if_pos]
    simp only [roomHasSpace, getRoomD_of_some hroom, decide_eq_true_eq]
    omega

/-- A concrete full room for the C1 witness. -/
def roomR2 : Room := mkRoom ⟨1, 1⟩ ⟨9, 9⟩ none none 100 100 false false

def stR2 : ServerSt := mkSt roomR2

/-- Witness for c1_room_capacity: joining the full concrete room "R" fails
with "Room is full" and leaves the state untouched. -/
theorem c1_room_capacity_w :
    joinRoom stR2 "c" "R" "Eve" ⟨0, 0⟩ = (.err "Room is full", stR2, []) :=
  c1_room_capacity.2 stR2 "c" "R" "Eve" ⟨0, 0⟩ roomR2 (by decide) (by decide)
    rfl (by decide)

/-!  ## Claim C4 — createRoom  -/

theorem ensureRoom_of_some {st : ServerSt} {rid : RoomId} {room : Room}
    (h : st.rooms rid = some room) : ensureRoom st rid = st := by
  unfold ensureRoom; rw [h]

theorem ensureRoom_of_none {st : ServerSt} {rid : RoomId}
    (h : st.rooms rid = none) : ensureRoom st rid = setRoom st rid emptyRoom := by
  unfold ensureRoom; rw [h]

/-- Claim C4 counterexample: createRoom with an empty nickname on an id
with 0 occupants does not succeed; it fails with the missing-arguments
error, contradicting "on an id with 0 occupants it always succeeds". -/
theorem c4_missing_nickname_cex :
    initSt.rooms "R" = none ∧
    createRoom initSt "s" "R" "" ⟨0, 0⟩ = (.err "Missing room or nickname", initSt, []) :=
  ⟨rfl, rfl⟩

/-- Claim C4 (amended): provided roomId and nickname are both nonempty,
createRoom fails with "Room ID already taken" when the room has at least
one occupant and leaves the state unchanged; when the id has 0 occupants
it succeeds, binding the caller and initialising it as the sole occupant
with the sampled spawn position, hp 100, score 0, next null and
ready false. -/
theorem c4_create_room (st : ServerSt) (s : SId) (rid nick : String) (sp : Pos)
    (hrid : rid ≠ "") (hnick : nick ≠ "") :
    (∀ room, st.rooms rid = some room → 1 ≤ room.players.length →
      createRoom st s rid nick sp = (.err "Room ID already taken", st, [])) ∧
    ((∀ room, st.rooms rid = some room → room.players = []) →
      (createRoom st s rid nick sp).1 = .ok ∧
      (createRoom st s rid nick sp).2.1.binding s = some rid ∧
      ∃ r1, (createRoom st s rid nick sp).2.1.rooms rid = some r1 ∧
        r1.players = [s] ∧ r1.nick s = some nick ∧ r1.score s = some 0 ∧
        r1.pos s = some sp ∧ r1.next s = some none ∧ r1.hp s = some 100 ∧
        r1.ready s = some false) := by
  constructor
  · intro room hroom hlen
    unfold createRoom
    rw [if_neg (by simp [hrid, hnick])]
    rw [ensureRoom_of_some hroom]
    dsimp only
    rw [if_pos]
    rw [getRoomD_of_some hroom]
    omega
  · intro hfree
    unfold createRoom
    rw [if_neg (by simp [hrid, hnick])]
    cases hro : st.rooms rid with
    | none =>
      rw [ensureRoom_of_none hro]
      dsimp only
      have hget : getRoomD (setRoom st rid emptyRoom) rid = emptyRoom := by
        simp [getRoomD, setRoom]
      rw [hget]
      rw [if_neg (by simp [emptyRoom])]
      refine ⟨rfl, by simp [bindSock], addPlayer emptyRoom s nick sp, ?_, ?_⟩
      · simp [bindSock, setRoom]
      · simp [addPlayer, emptyRoom, mset]
    | some room =>
      have h0 : room.players = [] := hfree room hro
      rw [ensureRoom_of_some hro]
      dsimp only
      rw [getRoomD_of_some hro]
      rw [if_neg (by simp [h0])]
      refine ⟨rfl, by simp [bindSock], addPlayer room s nick sp, ?_, ?_⟩
      · simp [bindSock, setRoom]
      · simp [addPlayer, h0, mset]

/-- Witness for c4_create_room: on the empty server, creating room "R"
succeeds and binds the caller. -/
theorem c4_create_room_w :
    (createRoom initSt "s" "R" "Al" ⟨2, 3⟩).1 = .ok ∧
    (createRoom initSt "s" "R" "Al" ⟨2, 3⟩).2.1.binding "s" = some "R" := by
  have h := (c4_create_room initSt "s" "R" "Al" ⟨2, 3⟩ (by decide) (by decide)).2
    (by intro room hr; simp [initSt] at hr)
  exact ⟨h.1, h.2.1⟩

/-!  ## Claim C6 — one room per connection  -/

def c6st1 : ServerSt := (createRoom initSt "s" "A" "Alice" ⟨1, 2⟩).2.1

/-- Claim C6 counterexample: the connection "s", already bound to room
"A", issues createRoom for "B"; the attempt is accepted, the binding is
overwritten to "B", and "s" is still listed in room "A"'s players. -/
theorem c6_rebind_cex :
    (createRoom initSt "s" "A" "Alice" ⟨1, 2⟩).1 = .ok ∧
    c6st1.binding "s" = some "A" ∧
    (createRoom c6st1 "s" "B" "Alice" ⟨3, 4⟩).1 = .ok ∧
    (createRoom c6st1 "s" "B" "Alice" ⟨3, 4⟩).2.1.binding "s" = some "B" ∧
    "s" ∈ (((createRoom c6st1 "s" "B" "Alice" ⟨3, 4⟩).2.1.rooms "A").getD emptyRoom).players :=
  ⟨rfl, rfl, rfl, rfl, by decide⟩

theorem createRoom_ignores_binding (st : ServerSt) (b : SId → Option RoomId)
    (s : SId) (rid nick : String) (sp : Pos) :
    (createRoom { st with binding := b } s rid nick sp).1 = (createRoom st s rid nick sp).1 ∧
    (createRoom { st with binding := b } s rid nick sp).2.1.rooms =
      (createRoom st s rid nick sp).2.1.rooms := by
  unfold createRoom ensureRoom getRoomD
  cases hro : st.rooms rid with
  | none => split <;> simp [hro, setRoom, bindSock, emptyRoom]
  | some room => split <;> simp [hro, setRoom, bindSock] <;> split <;> simp

theorem joinRoom_ignores_binding (st : ServerSt) (b : SId → Option RoomId)
    (s : SId) (rid nick : String) (sp : Pos) :
    (joinRoom { st with binding := b } s rid nick sp).1 = (joinRoom st s rid nick sp).1 ∧
    (joinRoom { st with binding := b } s rid nick sp).2.1.rooms =
      (joinRoom st s rid nick sp).2.1.rooms := by
  unfold joinRoom roomHasSpace getRoomD
  cases hro : st.rooms rid with
  | none => split <;> simp [hro]
  | some room => split <;> simp [hro, setRoom, bindSock] <;> split <;> simp

theorem enterGame_ignores_binding (st : ServerSt) (b : SId → Option RoomId)
    (s : SId) (rid nick : String) (sp : Pos) :
    (enterGame { st with binding := b } s rid nick sp).1 = (enterGame st s rid nick sp).1 ∧
    (enterGame { st with binding := b } s rid nick sp).2.1.rooms =
      (enterGame st s rid nick sp).2.1.rooms := by
  unfold enterGame ensureRoom roomHasSpace getRoomD
  cases hro : st.rooms rid with
  | none => simp [hro, setRoom, bindSock, emptyRoom]
  | some room =>
    constructor <;> (simp only [hro]; split_ifs <;> rfl)

/-- Claim C6 (amended): a connection already bound to a room is not
rejected when it issues createRoom, joinRoom or enterGame: the callback
result and the effect on the room table are independent of the
connection's current binding (the handlers never consult the binding),
a successful createRoom or joinRoom overwrites the binding with the new
room id, and the previously bound room keeps its players list. -/
theorem c6_rebind_not_rejected (st : ServerSt) (b : SId → Option RoomId)
    (s : SId) (rid nick : String) (sp : Pos) :
    ((createRoom { st with binding := b } s rid nick sp).1 = (createRoom st s rid nick sp).1 ∧
     (createRoom { st with binding := b } s rid nick sp).2.1.rooms =
       (createRoom st s rid nick sp).2.1.rooms) ∧
    ((joinRoom { st with binding := b } s rid nick sp).1 = (joinRoom st s rid nick sp).1 ∧
     (joinRoom { st with binding := b } s rid nick sp).2.1.rooms =
       (joinRoom st s rid nick sp).2.1.rooms) ∧
    ((enterGame { st with binding := b } s rid nick sp).1 = (enterGame st s rid nick sp).1 ∧
     (enterGame { st with binding := b } s rid nick sp).2.1.rooms =
       (enterGame st s rid nick sp).2.1.rooms) ∧
    ((createRoom st s rid nick sp).1 = .ok →
      (createRoom st s rid nick sp).2.1.binding s = some rid) ∧
    ((joinRoom st s rid nick sp).1 = .ok →
      (joinRoom st s rid nick sp).2.1.binding s = some rid) ∧
    (∀ rid2 r2, rid2 ≠ rid → st.rooms rid2 = some r2 →
      (createRoom st s rid nick sp).2.1.rooms rid2 = some r2) := by
  refine ⟨createRoom_ignores_binding st b s rid nick sp,
    joinRoom_ignores_binding st b s rid nick sp,
    enterGame_ignores_binding st b s rid nick sp, ?_, ?_, ?_⟩
  · intro hok
    unfold createRoom at hok ⊢
    split at hok
    · simp at hok
    · rename_i h1
      rw [if_neg h1]
      dsimp only at hok ⊢
      split at hok
      · simp at hok
      · rename_i h2
        rw [if_neg h2]
        simp [bindSock]
  · intro hok
    unfold joinRoom at hok ⊢
    split at hok
    · simp at hok
    · rename_i h1
      rw [if_neg h1]
      cases hro : st.rooms rid <;> simp only [hro] at hok ⊢
      · simp at hok
      · split at hok
        · simp at hok
        · rename_i h2
          rw [if_neg h2]
          simp [bindSock]
  · intro rid2 r2 hne hr2
    unfold createRoom
    split
    · exact hr2
    · dsimp only
      split
      · cases hro : st.rooms rid
        · rw [ensureRoom_of_none hro]; simp [setRoom, hne, hr2]
        · rw [ensureRoom_of_some hro]; exact hr2
      · cases hro : st.rooms rid
        · rw [ensureRoom_of_none hro]; simp [setRoom, bindSock, hne, hr2]
        · rw [ensureRoom_of_some hro]; simp [setRoom, bindSock, hne, hr2]

/-- Witness for c6_rebind_not_rejected: the bound connection "s"
successfully rebinds to the fresh room "B". -/
theorem c6_rebind_not_rejected_w :
    (createRoom c6st1 "s" "B" "Bob" ⟨3, 4⟩).2.1.binding "s" = some "B" := by
  have h := c6_rebind_not_rejected c6st1 (fun _ => none) "s" "B" "Bob" ⟨3, 4⟩
  exact h.2.2.2.1 (by decide)

/-!  ## castRune structure lemmas  -/

theorem castRune_eq (st : ServerSt) (me : SId) (ty : String) (tx tgy : Int)
    (rid : RoomId) (room : Room)
    (hb : st.binding me = some rid) (hr : st.rooms rid = some room) :
    castRune st me ty tx tgy =
      (setRoom st rid
         (roundCheck { room with hp := (castCore room me ty tx tgy).2.2 }).1,
       SEvent.spellResolved me ty tx tgy (castCore room me ty tx tgy).1
         (if (castCore room me ty tx tgy).1 then (castCore room me ty tx tgy).2.1 else none)
         :: (roundCheck { room with hp := (castCore room me ty tx tgy).2.2 }).2) := by
  unfold castRune
  simp only [hb]
  simp only [hr]

theorem roundCheck_hp (r : Room) : (roundCheck r).1.hp = r.hp := by
  unfold roundCheck
  split
  · split <;> rfl
  · rfl

theorem roundCheck_players (r : Room) : (roundCheck r).1.players = r.players := by
  unfold roundCheck
  split
  · rename_i p0 p1 hps
    split <;> simp [hps]
  · rfl

/-- Characterisation of the round-over branch. -/
theorem roundCheck_over (r : Room) (p0 p1 : SId) (hps : r.players = [p0, p1])
    (hz : (jsLe0 (r.hp p0) || jsLe0 (r.hp p1)) = true) :
    roundCheck r =
      ({ r with
          score := mset r.score (if jsLe0 (r.hp p0) then p1 else p0)
            ((r.score (if jsLe0 (r.hp p0) then p1 else p0)).getD 0 + 1)
          ready := mset (mset r.ready p0 false) p1 false },
       [SEvent.roundOver (if jsLe0 (r.hp p0) then p1 else p0)
          (mset r.score (if jsLe0 (r.hp p0) then p1 else p0)
            ((r.score (if jsLe0 (r.hp p0) then p1 else p0)).getD 0 + 1))]) := by
  unfold roundCheck
  rw [hps]
  simp only [hz, if_true]

/-- roundCheck_over with the winner substituted by a known socket id. -/
theorem roundCheck_over2 (r : Room) (p0 p1 w : SId) (hps : r.players = [p0, p1])
    (hz : (jsLe0 (r.hp p0) || jsLe0 (r.hp p1)) = true)
    (hw : (if jsLe0 (r.hp p0) then p1 else p0) = w) :
    roundCheck r =
      ({ r with
          score := mset r.score w ((r.score w).getD 0 + 1)
          ready := mset (mset r.ready p0 false) p1 false },
       [SEvent.roundOver w (mset r.score w ((r.score w).getD 0 + 1))]) := by
  rw [roundCheck_over r p0 p1 hps hz, hw]

/-- Characterisation of the no-round-over branch. -/
theorem roundCheck_not_over (r : Room) (p0 p1 : SId) (hps : r.players = [p0, p1])
    (hz : (jsLe0 (r.hp p0) || jsLe0 (r.hp p1)) = false) :
    roundCheck r = (r, []) := by
  unfold roundCheck
  rw [hps]
  simp [hz]

/-!  ## hp range preservation  -/

/-- A stored hp value is always within [0, 100]. -/
def hpOK (o : Option Int) : Prop :=
  ∀ v, o = some v → 0 ≤ v ∧ v ≤ 100

theorem applyDamage_ok (o : Option Int) (amt : Int) (hamt : 0 ≤ amt) (h : hpOK o) :
    0 ≤ applyDamage o amt ∧ applyDamage o amt ≤ 100 := by
  unfold applyDamage
  cases o with
  | none =>
    constructor
    · exact le_max_left 0 _
    · apply max_le <;> simp <;> omega
  | some v =>
    obtain ⟨h0, h100⟩ := h v rfl
    constructor
    · exact le_max_left 0 _
    · apply max_le <;> simp <;> omega

theorem applyHeal_ok (o : Option Int) (amt : Int) (hamt : 0 ≤ amt) (h : hpOK o) :
    0 ≤ applyHeal o amt ∧ applyHeal o amt ≤ 100 := by
  unfold applyHeal
  cases o with
  | none =>
    constructor
    · apply le_min <;> simp <;> omega
    · exact min_le_left 100 _
  | some v =>
    obtain ⟨h0, h100⟩ := h v rfl
    constructor
    · apply le_min <;> simp <;> omega
    · exact min_le_left 100 _

theorem hpOK_mset (m : SId → Option Int) (k : SId) (v : Int)
    (hm : ∀ q, hpOK (m q)) (hv : 0 ≤ v ∧ v ≤ 100) : ∀ q, hpOK (mset m k v q) := by
  intro q w hw
  unfold mset at hw
  split at hw
  · cases hw; exact hv
  · exact hm q w hw

theorem exploStep_hpOK (room : Room) (targets : List Pos)
    (acc : Bool × Option SId × (SId → Option Int)) (pid : SId)
    (h : ∀ q, hpOK (acc.2.2 q)) : ∀ q, hpOK ((exploStep room targets acc pid).2.2 q) := by
  unfold exploStep
  dsimp only
  split
  · exact hpOK_mset _ _ _ h (applyDamage_ok _ 19 (by omega) (h pid))
  · exact h

theorem exploFold_hpOK (room : Room) (targets : List Pos) (l : List SId) :
    ∀ acc : Bool × Option SId × (SId → Option Int), (∀ q, hpOK (acc.2.2 q)) →
      ∀ q, hpOK ((l.foldl (exploStep room targets) acc).2.2 q) := by
  induction l with
  | nil => intro acc h; exact h
  | cons pid rest ih =>
    intro acc h
    exact ih (exploStep room targets acc pid) (exploStep_hpOK room targets acc pid h)

theorem hpBranch_hpOK (room : Room) (ty : String) (o : Option SId)
    (h : ∀ q, hpOK (room.hp q)) :
    ∀ q, hpOK (((match o with
      | some tgt =>
        if ty = "sd" then mset room.hp tgt (applyDamage (room.hp tgt) 40)
        else if ty = "uh" then mset room.hp tgt (applyHeal (room.hp tgt) 40)
        else room.hp
      | none => room.hp : SId → Option Int)) q) := by
  cases o with
  | none => exact h
  | some tgt =>
    split
    · exact hpOK_mset _ _ _ h (applyDamage_ok _ 40 (by omega) (h tgt))
    · split
      · exact hpOK_mset _ _ _ h (applyHeal_ok _ 40 (by omega) (h tgt))
      · exact h

theorem castCore_hpOK (room : Room) (me : SId) (ty : String) (tx tgy : Int)
    (h : ∀ q, hpOK (room.hp q)) : ∀ q, hpOK ((castCore room me ty tx tgy).2.2 q) := by
  unfold castCore
  split
  · exact exploFold_hpOK room _ room.players (false, none, room.hp) h
  · exact hpBranch_hpOK room ty _ h

theorem opponentOf_two (room : Room) (p0 p1 me opp : SId) (hps : room.players = [p0, p1])
    (hne : p0 ≠ p1) (hme : me = p0 ∧ opp = p1 ∨ me = p1 ∧ opp = p0) :
    opponentOf room me = some opp := by
  unfold opponentOf
  rw [hps]
  rcases hme with ⟨h1, h2⟩ | ⟨h1, h2⟩ <;> subst h1 <;> subst h2
  · have h3 : (opp != me) = true := bne_iff_ne.mpr (Ne.symm hne)
    simp [List.find?, bne_self_eq_false, h3]
  · have h3 : (opp != me) = true := bne_iff_ne.mpr hne
    simp [List.find?, bne_self_eq_false, h3]

theorem castRune_room (st : ServerSt) (me : SId) (ty : String) (tx tgy : Int)
    (rid : RoomId) (room : Room)
    (hb : st.binding me = some rid) (hr : st.rooms rid = some room) :
    getRoomD (castRune st me ty tx tgy).1 rid =
      (roundCheck { room with hp := (castCore room me ty tx tgy).2.2 }).1 := by
  rw [castRune_eq st me ty tx tgy rid room hb hr]
  simp [getRoomD, setRoom]

theorem castRune_events (st : ServerSt) (me : SId) (ty : String) (tx tgy : Int)
    (rid : RoomId) (room : Room)
    (hb : st.binding me = some rid) (hr : st.rooms rid = some room) :
    (castRune st me ty tx tgy).2 =
      SEvent.spellResolved me ty tx tgy (castCore room me ty tx tgy).1
        (if (castCore room me ty tx tgy).1 then (castCore room me ty tx tgy).2.1 else none)
      :: (roundCheck { room with hp := (castCore room me ty tx tgy).2.2 }).2 := by
  rw [castRune_eq st me ty tx tgy rid room hb hr]

/-- Explicit value of the hit-resolution core for a single-target cast. -/
theorem castCore_single (room : Room) (me opp : SId) (ty : String) (tx tgy : Int)
    (hopp : opponentOf room me = some opp) (hty : ty = "sd" ∨ ty = "uh") :
    castCore room me ty tx tgy =
      (posHit (room.pos me) ⟨tx, tgy⟩ ||
         (posHit (room.pos opp) ⟨tx, tgy⟩ || nextHit (room.next opp) ⟨tx, tgy⟩),
       (if posHit (room.pos opp) ⟨tx, tgy⟩ || nextHit (room.next opp) ⟨tx, tgy⟩ then some opp
        else if posHit (room.pos me) ⟨tx, tgy⟩ then some me else none),
       (if posHit (room.pos opp) ⟨tx, tgy⟩ || nextHit (room.next opp) ⟨tx, tgy⟩ then
          mset room.hp opp
            (if ty = "sd" then applyDamage (room.hp opp) 40 else applyHeal (room.hp opp) 40)
        else if posHit (room.pos me) ⟨tx, tgy⟩ then
          mset room.hp me
            (if ty = "sd" then applyDamage (room.hp me) 40 else applyHeal (room.hp me) 40)
        else room.hp)) := by
  rcases hty with h | h <;> subst h <;>
    (unfold castCore
     rw [if_neg (by decide)]
     dsimp only
     rw [hopp]
     by_cases hohit :
         (posHit (room.pos opp) ⟨tx, tgy⟩ || nextHit (room.next opp) ⟨tx, tgy⟩) = true <;>
       by_cases hself : posHit (room.pos me) ⟨tx, tgy⟩ = true <;>
       simp [hohit, hself])

theorem mkRoom_hpOK (pa pb : Pos) (na nb : Option Pos) (hpa hpb : Int) (ra rb : Bool)
    (h1 : 0 ≤ hpa ∧ hpa ≤ 100) (h2 : 0 ≤ hpb ∧ hpb ≤ 100) :
    ∀ q, hpOK ((mkRoom pa pb na nb hpa hpb ra rb).hp q) := by
  intro q v hv
  simp only [mkRoom] at hv
  split at hv
  · cases hv; exact h1
  · split at hv
    · cases hv; exact h2
    · cases hv

/-!  ## Claim C9 — clamping  -/

/-- Claim C9: heal on a full-health occupant leaves hp at 100, damage on
a zero-health occupant leaves hp at 0, and after any castRune every
stored hp of the room stays within [0, MAX_HP]. -/
theorem c9_clamp (st : ServerSt) (me : SId) (ty : String) (tx tgy : Int)
    (rid : RoomId) (room : Room)
    (hb : st.binding me = some rid) (hr : st.rooms rid = some room)
    (hhp : ∀ q, hpOK (room.hp q)) :
    applyHeal (some 100) 40 = 100 ∧
    (∀ amt : Int, 0 ≤ amt → applyDamage (some 0) amt = 0) ∧
    (∀ q, hpOK ((getRoomD (castRune st me ty tx tgy).1 rid).hp q)) := by
  refine ⟨rfl, ?_, ?_⟩
  · intro amt hamt
    unfold applyDamage
    simp only [Option.getD_some]
    rw [max_eq_left (by omega)]
  · rw [castRune_room st me ty tx tgy rid room hb hr, roundCheck_hp]
    exact castCore_hpOK room me ty tx tgy hhp

def c9room : Room := mkRoom ⟨1, 1⟩ ⟨9, 9⟩ none none 100 100 false false

/-- Witness for c9_clamp: "a" heals itself at full health; every stored
hp stays in range. -/
theorem c9_clamp_w :
    applyHeal (some 100) 40 = 100 ∧
    hpOK ((getRoomD (castRune (mkSt c9room) "a" "uh" 1 1).1 "R").hp "a") := by
  have h := c9_clamp (mkSt c9room) "a" "uh" 1 1 "R" c9room (by decide) rfl
    (mkRoom_hpOK _ _ _ _ _ _ _ _ (by decide) (by decide))
  exact ⟨h.1, h.2.2 "a"⟩

/-!  ## Claim C2 — single-target hit resolution  -/

def c2room : Room := mkRoom ⟨1, 1⟩ ⟨9, 9⟩ (some ⟨5, 5⟩) none 100 100 false false

/-- Claim C2 counterexample: caster "a" has confirmed position (1,1) and
anticipatedPosition (5,5); casting single-target damage at (5,5) misses —
the spellResolved event reports no hit and "a"'s health is unchanged —
although the claim requires the caster to be hit when the target equals
its own anticipatedPosition. -/
theorem c2_self_anticipated_cex :
    c2room.next "a" = some (some ⟨5, 5⟩) ∧
    c2room.pos "a" = some ⟨1, 1⟩ ∧
    (castRune (mkSt c2room) "a" "sd" 5 5).2 =
      [SEvent.spellResolved "a" "sd" 5 5 false none] ∧
    (getRoomD (castRune (mkSt c2room) "a" "sd" 5 5).1 "R").hp "a" = some 100 :=
  ⟨rfl, rfl, rfl, rfl⟩

/-- Claim C2 (amended): for a single-target cast ("sd" or "uh") in a
two-occupant room, the opponent is hit exactly when the target tile
equals its position or its anticipatedPosition (so an opponent mid-move
is hit through the anticipatedPosition match), while the caster itself is
checked against its confirmed position only — the caster's own
anticipatedPosition is never consulted — and when both the caster and the
opponent match, the effect is applied to the opponent. -/
theorem c2_single_target (st : ServerSt) (me opp : SId) (ty : String) (tx tgy : Int)
    (rid : RoomId) (room : Room) (p0 p1 : SId)
    (hb : st.binding me = some rid) (hr : st.rooms rid = some room)
    (hps : room.players = [p0, p1]) (hne : p0 ≠ p1)
    (hme : me = p0 ∧ opp = p1 ∨ me = p1 ∧ opp = p0)
    (hty : ty = "sd" ∨ ty = "uh") :
    (castRune st me ty tx tgy).2.head? =
      some (SEvent.spellResolved me ty tx tgy
        (posHit (room.pos me) ⟨tx, tgy⟩ ||
          (posHit (room.pos opp) ⟨tx, tgy⟩ || nextHit (room.next opp) ⟨tx, tgy⟩))
        (if posHit (room.pos opp) ⟨tx, tgy⟩ || nextHit (room.next opp) ⟨tx, tgy⟩ then some opp
         else if posHit (room.pos me) ⟨tx, tgy⟩ then some me else none)) ∧
    (getRoomD (castRune st me ty tx tgy).1 rid).hp =
      (if posHit (room.pos opp) ⟨tx, tgy⟩ || nextHit (room.next opp) ⟨tx, tgy⟩ then
        mset room.hp opp
          (if ty = "sd" then applyDamage (room.hp opp) 40 else applyHeal (room.hp opp) 40)
       else if posHit (room.pos me) ⟨tx, tgy⟩ then
        mset room.hp me
          (if ty = "sd" then applyDamage (room.hp me) 40 else applyHeal (room.hp me) 40)
       else room.hp) := by
  have hopp := opponentOf_two room p0 p1 me opp hps hne hme
  constructor
  · rw [castRune_events st me ty tx tgy rid room hb hr,
        castCore_single room me opp ty tx tgy hopp hty]
    by_cases hohit :
        (posHit (room.pos opp) ⟨tx, tgy⟩ || nextHit (room.next opp) ⟨tx, tgy⟩) = true <;>
      by_cases hself : posHit (room.pos me) ⟨tx, tgy⟩ = true <;>
      simp [hohit, hself]
  · rw [castRune_room st me ty tx tgy rid room hb hr, roundCheck_hp,
        castCore_single room me opp ty tx tgy hopp hty]

def c2broom : Room := mkRoom ⟨1, 1⟩ ⟨9, 9⟩ none (some ⟨5, 5⟩) 100 100 false false

/-- Witness for c2_single_target: opponent "b" is mid-move toward (5,5);
"a" casts single-target damage at (5,5) and the event reports a hit on
"b" through the anticipatedPosition match. -/
theorem c2_single_target_w :
    (castRune (mkSt c2broom) "a" "sd" 5 5).2.head? =
      some (SEvent.spellResolved "a" "sd" 5 5 true (some "b")) := by
  have h := (c2_single_target (mkSt c2broom) "a" "b" "sd" 5 5 "R" c2broom "a" "b"
    (by decide) rfl rfl (by decide) (Or.inl ⟨rfl, rfl⟩) (Or.inl rfl)).1
  simpa using h

/-!  ## Claim C3 — round end  -/

/-- Claim C3: after a castRune in a two-occupant room that leaves one
occupant's health at or below 0 while the other's is not, the round ends
immediately: both ready flags are reset to false, the loser's health is
exactly 0 (never negative, given in-range pre-cast health), the winner's
score is incremented by 1, and a roundOver event carrying the winner id
and the updated score map is broadcast. -/
theorem c3_round_end (st : ServerSt) (me : SId) (ty : String) (tx tgy : Int)
    (rid : RoomId) (room : Room) (p0 p1 i j : SId)
    (hb : st.binding me = some rid) (hr : st.rooms rid = some room)
    (hps : room.players = [p0, p1]) (hne : p0 ≠ p1)
    (hij : (i = p0 ∧ j = p1) ∨ (i = p1 ∧ j = p0))
    (hhp : ∀ q, hpOK (room.hp q))
    (hzi : jsLe0 ((getRoomD (castRune st me ty tx tgy).1 rid).hp i) = true)
    (hzj : jsLe0 ((getRoomD (castRune st me ty tx tgy).1 rid).hp j) = false) :
    (getRoomD (castRune st me ty tx tgy).1 rid).ready p0 = some false ∧
    (getRoomD (castRune st me ty tx tgy).1 rid).ready p1 = some false ∧
    (getRoomD (castRune st me ty tx tgy).1 rid).hp i = some 0 ∧
    (getRoomD (castRune st me ty tx tgy).1 rid).score j =
      some ((room.score j).getD 0 + 1) ∧
    ∃ sc, SEvent.roundOver j sc ∈ (castRune st me ty tx tgy).2 ∧
      sc j = some ((room.score j).getD 0 + 1) := by
  have hpost := castRune_room st me ty tx tgy rid room hb hr
  have hpev := castRune_events st me ty tx tgy rid room hb hr
  rw [hpost, roundCheck_hp] at hzi hzj
  have hzi2 : jsLe0 ((castCore room me ty tx tgy).2.2 i) = true := hzi
  have hzj2 : jsLe0 ((castCore room me ty tx tgy).2.2 j) = false := hzj
  have hcond :
      (jsLe0 ((castCore room me ty tx tgy).2.2 p0) ||
        jsLe0 ((castCore room me ty tx tgy).2.2 p1)) = true := by
    rcases hij with ⟨h1, h2⟩ | ⟨h1, h2⟩ <;> subst h1 <;> subst h2 <;> simp [hzi2]
  have hwin :
      (if jsLe0 ((castCore room me ty tx tgy).2.2 p0) then p1 else p0) = j := by
    rcases hij with ⟨h1, h2⟩ | ⟨h1, h2⟩ <;> subst h1 <;> subst h2
    · simp [hzi2]
    · simp [hzj2]
  have hover := roundCheck_over2 { room with hp := (castCore room me ty tx tgy).2.2 }
    p0 p1 j hps hcond hwin
  refine ⟨?_, ?_, ?_, ?_, ?_⟩
  · rw [hpost, hover]
    show mset (mset room.ready p0 false) p1 false p0 = some false
    rw [mset_other _ _ _ _ hne, mset_same]
  · rw [hpost, hover]
    show mset (mset room.ready p0 false) p1 false p1 = some false
    rw [mset_same]
  · rw [hpost, roundCheck_hp]
    show (castCore room me ty tx tgy).2.2 i = some 0
    cases hv : (castCore room me ty tx tgy).2.2 i with
    | none => rw [hv] at hzi2; simp [jsLe0] at hzi2
    | some v =>
      rw [hv] at hzi2
      simp only [jsLe0, decide_eq_true_eq] at hzi2
      obtain ⟨h0, _⟩ := castCore_hpOK room me ty tx tgy hhp i v hv
      rw [show v = 0 from le_antisymm hzi2 h0]
  · rw [hpost, hover]
    show mset room.score j ((room.score j).getD 0 + 1) j = some ((room.score j).getD 0 + 1)
    rw [mset_same]
  · rw [hpev, hover]
    refine ⟨_, List.mem_cons_of_mem _ (List.mem_singleton_self _), ?_⟩
    exact mset_same _ _ _

def c3room : Room := mkRoom ⟨1, 1⟩ ⟨9, 9⟩ none none 30 100 true true

/-- Witness for c3_round_end: "b" casts single-target damage at "a"'s
tile while "a" has 30 hp; "a" drops to exactly 0, both ready flags reset,
and "b" is credited the win. -/
theorem c3_round_end_w :
    (getRoomD (castRune (mkSt c3room) "b" "sd" 1 1).1 "R").hp "a" = some 0 ∧
    (getRoomD (castRune (mkSt c3room) "b" "sd" 1 1).1 "R").ready "a" = some false ∧
    (getRoomD (castRune (mkSt c3room) "b" "sd" 1 1).1 "R").score "b" = some 1 := by
  have h := c3_round_end (mkSt c3room) "b" "sd" 1 1 "R" c3room "a" "b" "a" "b"
    (by decide) rfl rfl (by decide) (Or.inl ⟨rfl, rfl⟩)
    (mkRoom_hpOK _ _ _ _ _ _ _ _ (by decide) (by decide)) (by decide) (by decide)
  exact ⟨h.2.2.1, h.1, h.2.2.2.1⟩

/-!  ## Claim C10 — simultaneous knock-out tie-break  -/

/-- Claim C10: when a cast leaves both occupants at (or below) 0 health,
the occupant at index 1 of the players list is credited: its score is
incremented and it is named in the roundOver broadcast, while the
occupant at index 0's score is unchanged. -/
theorem c10_double_ko (st : ServerSt) (me : SId) (ty : String) (tx tgy : Int)
    (rid : RoomId) (room : Room) (p0 p1 : SId)
    (hb : st.binding me = some rid) (hr : st.rooms rid = some room)
    (hps : room.players = [p0, p1]) (hne : p0 ≠ p1)
    (hz0 : jsLe0 ((getRoomD (castRune st me ty tx tgy).1 rid).hp p0) = true)
    (hz1 : jsLe0 ((getRoomD (castRune st me ty tx tgy).1 rid).hp p1) = true) :
    (getRoomD (castRune st me ty tx tgy).1 rid).score p1 =
      some ((room.score p1).getD 0 + 1) ∧
    (getRoomD (castRune st me ty tx tgy).1 rid).score p0 = room.score p0 ∧
    ∃ sc, SEvent.roundOver p1 sc ∈ (castRune st me ty tx tgy).2 := by
  have hpost := castRune_room st me ty tx tgy rid room hb hr
  have hpev := castRune_events st me ty tx tgy rid room hb hr
  rw [hpost, roundCheck_hp] at hz0 hz1
  have hz02 : jsLe0 ((castCore room me ty tx tgy).2.2 p0) = true := hz0
  have hcond :
      (jsLe0 ((castCore room me ty tx tgy).2.2 p0) ||
        jsLe0 ((castCore room me ty tx tgy).2.2 p1)) = true := by simp [hz02]
  have hwin : (if jsLe0 ((castCore room me ty tx tgy).2.2 p0) then p1 else p0) = p1 := by
    simp [hz02]
  have hover := roundCheck_over2 { room with hp := (castCore room me ty tx tgy).2.2 }
    p0 p1 p1 hps hcond hwin
  refine ⟨?_, ?_, ?_⟩
  · rw [hpost, hover]
    show mset room.score p1 ((room.score p1).getD 0 + 1) p1 = some ((room.score p1).getD 0 + 1)
    rw [mset_same]
  · rw [hpost, hover]
    show mset room.score p1 ((room.score p1).getD 0 + 1) p0 = room.score p0
    rw [mset_other _ _ _ _ hne]
  · rw [hpev, hover]
    exact ⟨_, List.mem_cons_of_mem _ (List.mem_singleton_self _)⟩

def c10room : Room := mkRoom ⟨0, 0⟩ ⟨0, 1⟩ none none 19 19 true true

/-- Witness for c10_double_ko: an area cast at (0,0) hits both occupants
(at 19 hp each), both drop to 0 and the later joiner "b" takes the win. -/
theorem c10_double_ko_w :
    (getRoomD (castRune (mkSt c10room) "a" "explo" 0 0).1 "R").score "b" = some 1 ∧
    (getRoomD (castRune (mkSt c10room) "a" "explo" 0 0).1 "R").score "a" = some 0 := by
  have h := c10_double_ko (mkSt c10room) "a" "explo" 0 0 "R" c10room "a" "b"
    (by decide) rfl rfl (by decide) (by decide) (by decide)
  refine ⟨by simpa using h.1, by simpa [c10room, mkRoom] using h.2.1⟩

/-!  ## Claim C5 — area cast pattern  -/

/-- Claim C5: the explo pattern is the 5-tile cross filtered to the
16x16 grid, so every surviving cell lies in [0,16) on both axes; at the
corner (0,0) it has at most 3 cells, none with a negative coordinate;
and in a two-occupant room the cast damages exactly the occupants whose
position or anticipatedPosition matches a surviving cell. -/
theorem c5_area_pattern :
    (∀ tx tgy : Int, ∀ t ∈ exploTargets tx tgy,
      0 ≤ t.x ∧ t.x < 16 ∧ 0 ≤ t.y ∧ t.y < 16) ∧
    ((exploTargets 0 0).length ≤ 3 ∧ ∀ t ∈ exploTargets 0 0, 0 ≤ t.x ∧ 0 ≤ t.y) ∧
    (∀ st me tx tgy rid room p0 p1,
      st.binding me = some rid → st.rooms rid = some room →
      room.players = [p0, p1] → p0 ≠ p1 →
      ∀ k, (getRoomD (castRune st me "explo" tx tgy).1 rid).hp k =
        if k = p0 ∨ k = p1 then
          (if (exploTargets tx tgy).any
              (fun t => posHit (room.pos k) t || nextHit (room.next k) t) then
            some (applyDamage (room.hp k) 19)
          else room.hp k)
        else room.hp k) := by
  refine ⟨?_, by decide, ?_⟩
  · intro tx tgy t ht
    unfold exploTargets at ht
    rw [List.mem_filter] at ht
    have h2 := ht.2
    unfold inGrid at h2
    simp only [Bool.and_eq_true, decide_eq_true_eq] at h2
    exact ⟨h2.1.1.1, h2.1.1.2, h2.1.2, h2.2⟩
  · intro st me tx tgy rid room p0 p1 hb hr hps hne k
    rw [castRune_room st me "explo" tx tgy rid room hb hr, roundCheck_hp]
    show (castCore room me "explo" tx tgy).2.2 k = _
    unfold castCore
    rw [if_pos rfl, hps]
    simp only [List.foldl_cons, List.foldl_nil]
    unfold exploStep
    dsimp only
    by_cases h0 : (exploTargets tx tgy).any
        (fun t => posHit (room.pos p0) t || nextHit (room.next p0) t) = true <;>
      by_cases h1 : (exploTargets tx tgy).any
        (fun t => posHit (room.pos p1) t || nextHit (room.next p1) t) = true <;>
      simp only [h0, h1, if_true, if_false, Bool.false_eq_true, reduceIte] <;>
      by_cases hk0 : k = p0 <;> by_cases hk1 : k = p1
    · exact absurd (hk0 ▸ hk1) hne
    · subst hk0; simp [mset, hne, Ne.symm hne, h0]
    · subst hk1; simp [mset, h1, hk0]
    · simp [mset, hk0, hk1]
    · exact absurd (hk0 ▸ hk1) hne
    · subst hk0; simp [mset, hne, Ne.symm hne, h0]
    · subst hk1; simp [mset, h1, hk0]
    · simp [mset, hk0, hk1]
    · exact absurd (hk0 ▸ hk1) hne
    · subst hk0; simp [mset, hne, Ne.symm hne, h0]
    · subst hk1; simp [mset, h1, hk0]
    · simp [mset, hk0, hk1]
    · exact absurd (hk0 ▸ hk1) hne
    · subst hk0; simp [mset, hne, Ne.symm hne, h0]
    · subst hk1; simp [mset, h1, hk0]
    · simp [mset, hk0, hk1]

def c5room : Room := mkRoom ⟨2, 2⟩ ⟨0, 1⟩ none none 100 100 false false

/-- Witness for c5_area_pattern: an explo cast at the corner (0,0) with
"b" on the in-bounds cross cell (0,1) damages "b" (100 → 81) and leaves
"a" at (2,2) untouched. -/
theorem c5_area_pattern_w :
    (getRoomD (castRune (mkSt c5room) "a" "explo" 0 0).1 "R").hp "b" = some 81 ∧
    (getRoomD (castRune (mkSt c5room) "a" "explo" 0 0).1 "R").hp "a" = some 100 := by
  have h := c5_area_pattern.2.2 (mkSt c5room) "a" 0 0 "R" c5room "a" "b"
    (by decide) rfl rfl (by decide)
  constructor
  · have hb2 := h "b"
    rw [hb2]
    decide
  · have ha2 := h "a"
    rw [ha2]
    decide

/-!  ## Claim C7 — countdown re-arming  -/

def c7stJoined : ServerSt :=
  (joinRoom (createRoom initSt "a" "R" "Al" ⟨1, 1⟩).2.1 "b" "R" "Bo" ⟨9, 9⟩).2.1

def c7stReadyA : ServerSt := (setReady c7stJoined "a").1

def c7stArmed : ServerSt := (setReady c7stReadyA "b").1

def c7stInRound : ServerSt := (roundStartTimer c7stArmed "R" (fun _ => ⟨2, 2⟩)).1

/-- Claim C7 counterexample, on the reachable trace create, join, both
ready (countdown armed), round started by the timer: a redundant setReady
from "a" while the round is running arms a second countdown, because
src/server.js keeps both ready flags true after roundStart and has no
inRound guard. -/
theorem c7_countdown_rearmed_cex :
    (setReady c7stReadyA "b").2 = [SEvent.roundCountdown 3] ∧
    ((c7stInRound.rooms "R").getD emptyRoom).ready "a" = some true ∧
    ((c7stInRound.rooms "R").getD emptyRoom).ready "b" = some true ∧
    (setReady c7stInRound "a").2 = [SEvent.roundCountdown 3] :=
  ⟨rfl, rfl, rfl, rfl⟩

/-- Claim C7 (amended): the inRound guard exists only in the
src/unnamed/part_000 variant, whose set_ready refuses to start the round
countdown whenever match.inRound is true; in src/server.js a setReady
arriving while both ready flags are still true re-arms the countdown. -/
theorem c7_inround_guard (r : P0.P0Room) (me : P0.SId) (rdy : Bool)
    (h : r.inRound = true) : (P0.set_ready r me rdy).2 = false := by
  unfold P0.set_ready
  simp [h]

/-- Witness for c7_inround_guard: with two players both ready and a round
in progress, part_000's set_ready does not start a countdown. -/
theorem c7_inround_guard_w :
    (P0.set_ready ⟨["a", "b"], [("a", true), ("b", true)], true⟩ "a" true).2 = false :=
  c7_inround_guard ⟨["a", "b"], [("a", true), ("b", true)], true⟩ "a" true rfl

/-!  ## Claim C8 — disconnect cleanup  -/

/-- Every per-player map of the room has exactly the current members of
players as its keys. -/
def RoomKeysInv (r : Room) : Prop :=
  ∀ k, ((r.nick k).isSome ↔ k ∈ r.players) ∧ ((r.score k).isSome ↔ k ∈ r.players) ∧
    ((r.pos k).isSome ↔ k ∈ r.players) ∧ ((r.next k).isSome ↔ k ∈ r.players) ∧
    ((r.hp k).isSome ↔ k ∈ r.players) ∧ ((r.ready k).isSome ↔ k ∈ r.players)

theorem disconnect_eq (st : ServerSt) (s : SId) (rid : RoomId) (room : Room)
    (hb : st.binding s = some rid) (hr : st.rooms rid = some room) :
    disconnect st s =
      (if (roomWithout room s).players.length = 0
        then delRoom (setRoom st rid (roomWithout room s)) rid
        else setRoom st rid (roomWithout room s),
       [SEvent.opponentLeft, SEvent.roomsUpdate]) := by
  unfold disconnect
  simp only [hb]
  simp only [hr]

theorem roomWithout_keysInv (room : Room) (s : SId) (h : RoomKeysInv room) :
    RoomKeysInv (roomWithout room s) := by
  intro k
  have hk := h k
  by_cases hks : k = s
  · subst hks
    simp [roomWithout, mdel, List.mem_filter]
  · have hbne : (k != s) = true := bne_iff_ne.mpr hks
    simp only [roomWithout, mdel_other _ _ _ hks, List.mem_filter, hbne, and_true]
    exact hk

theorem createRoom_ok_of_absent (st : ServerSt) (s2 : SId) (rid nick : String) (sp : Pos)
    (hrid : rid ≠ "") (hnick : nick ≠ "") (h : st.rooms rid = none) :
    (createRoom st s2 rid nick sp).1 = .ok := by
  unfold createRoom
  rw [if_neg (by simp [hrid, hnick])]
  rw [ensureRoom_of_none h]
  dsimp only
  rw [if_neg (by simp [getRoomD, setRoom, emptyRoom])]

/-- Claim C8: disconnect of a bound connection removes it from players
and from every per-player map in one step, preserving the exact
correspondence between map keys and remaining members; in a 2-occupant
room exactly one occupant remains and an opponentLeft notification is
broadcast; when the room empties it is deleted from the registry and a
createRoom with the same id succeeds again. -/
theorem c8_disconnect_cleanup (st : ServerSt) (s : SId) (rid : RoomId) (room : Room)
    (hb : st.binding s = some rid) (hr : st.rooms rid = some room)
    (hinv : RoomKeysInv room) :
    (disconnect st s).2 = [SEvent.opponentLeft, SEvent.roomsUpdate] ∧
    (∀ a b, room.players = [a, b] → a ≠ b → (s = a ∨ s = b) →
      ∃ r1, ((disconnect st s).1).rooms rid = some r1 ∧
        r1.players = [if s = a then b else a] ∧ RoomKeysInv r1 ∧
        r1.nick s = none ∧ r1.score s = none ∧ r1.pos s = none ∧
        r1.next s = none ∧ r1.hp s = none ∧ r1.ready s = none) ∧
    (room.players.filter (fun id => id != s) = [] →
      ((disconnect st s).1).rooms rid = none ∧
      (∀ s2 nick sp, rid ≠ "" → nick ≠ "" →
        (createRoom ((disconnect st s).1) s2 rid nick sp).1 = .ok)) := by
  have hd := disconnect_eq st s rid room hb hr
  refine ⟨by rw [hd], ?_, ?_⟩
  · intro a b hab hne hsab
    have hfil : (roomWithout room s).players = [if s = a then b else a] := by
      rcases hsab with hs | hs <;> subst hs
      · simp [roomWithout, hab, List.filter, bne_self_eq_false,
          bne_iff_ne.mpr (Ne.symm hne)]
      · have hsa : ¬ (s = a) := fun hcon => hne (hcon ▸ rfl)
        simp [roomWithout, hab, List.filter, bne_self_eq_false,
          bne_iff_ne.mpr hne, hsa]
    refine ⟨roomWithout room s, ?_, hfil, roomWithout_keysInv room s hinv,
      mdel_same _ _, mdel_same _ _, mdel_same _ _, mdel_same _ _,
      mdel_same _ _, mdel_same _ _⟩
    rw [hd]
    have hlen : ¬ ((roomWithout room s).players.length = 0) := by
      rw [hfil]; simp
    rw [if_neg hlen]
    simp [setRoom]
  · intro hemp
    have hlen : (roomWithout room s).players.length = 0 := by
      show (room.players.filter (fun id => id != s)).length = 0
      rw [hemp]; rfl
    have hnone : ((disconnect st s).1).rooms rid = none := by
      rw [hd, if_pos hlen]
      simp [delRoom]
    refine ⟨hnone, ?_⟩
    intro s2 nick sp hrid hnick
    exact createRoom_ok_of_absent _ s2 rid nick sp hrid hnick hnone

theorem mkRoom_keysInv (pa pb : Pos) (na nb : Option Pos) (hpa hpb : Int) (ra rb : Bool) :
    RoomKeysInv (mkRoom pa pb na nb hpa hpb ra rb) := by
  intro k
  by_cases h1 : k = "a" <;> by_cases h2 : k = "b" <;>
    simp [mkRoom, h1, h2]

/-- Witness for c8_disconnect_cleanup: "a" disconnects from the full
concrete room "R"; "b" alone remains, every map entry of "a" is gone,
and the key/member correspondence still holds. -/
theorem c8_disconnect_cleanup_w :
    (disconnect stR2 "a").2 = [SEvent.opponentLeft, SEvent.roomsUpdate] ∧
    ∃ r1, ((disconnect stR2 "a").1).rooms "R" = some r1 ∧
      r1.players = [if "a" = "a" then "b" else "a"] ∧ RoomKeysInv r1 ∧
      r1.nick "a" = none ∧ r1.score "a" = none ∧ r1.pos "a" = none ∧
      r1.next "a" = none ∧ r1.hp "a" = none ∧ r1.ready "a" = none := by
  have h := c8_disconnect_cleanup stR2 "a" "R" roomR2 (by decide) rfl
    (mkRoom_keysInv _ _ _ _ _ _ _ _)
  exact ⟨h.1, h.2.1 "a" "b" rfl (by decide) (Or.inl rfl)⟩

end Pvp
